import Mathlib

/-!
Verification of the mergebro merge pipeline.

Shallow embedding of `src/processing/merge.rs`, `src/main.rs` and the parts
of `src/config.rs` they use. Pure Rust functions become Lean functions; the
network-bound merge submission (`GithubClient::merge_pull_request`) is
modelled by a response oracle `github : Nat → SubmitResponse` giving the
outcome of the n-th submission, and the merger additionally returns the
ordered trace of submissions it performed, so that "no further submissions
were made" is a statement about the trace.
-/

namespace Mergebro

/-- Type `MergeMethod` from the github module (variants as used in merge.rs). -/
inductive MergeMethod where
  | Merge
  | Squash
  | Rebase
deriving DecidableEq, Repr

/-- Type `MergeConfig` from config.rs: the configured default merge method. -/
structure MergeConfig where
  default_method : MergeMethod
deriving DecidableEq, Repr

/-- The head commit of a pull request (only the sha is used by merge.rs). -/
structure Head where
  sha : String
deriving DecidableEq, Repr

/-- The `PullRequest` fields consumed by merge.rs: title, optional body, head sha. -/
structure PullRequest where
  title : String
  body : Option String
  head : Head
deriving DecidableEq, Repr

/-- Type `MergeRequestBody` from the github client module, as built in
`merge_with_method`. -/
structure MergeRequestBody where
  sha : String
  commit_title : String
  commit_message : Option String
  merge_method : MergeMethod
deriving DecidableEq, Repr

/-- The github client error, observed by merge.rs only through its two
classification predicates `method_not_allowed()` and `conflict()`
(the error type itself lives outside the provided sources), so it is
modelled by the pair of Boolean classifications. -/
structure ClientError where
  method_not_allowed : Bool
  conflict : Bool
deriving DecidableEq, Repr

/-- Type `processing::Error` as produced by `Err(e.into())` in merge.rs: a
wrapper around the client error it was converted from. -/
structure Error where
  source : ClientError
deriving DecidableEq, Repr

/-- Outcome of one `merge_pull_request` submission: success, or an error
with its classifications. -/
inductive SubmitResponse where
  | ok
  | err (e : ClientError)
deriving DecidableEq, Repr

/-- Type `MergeResult` from merge.rs. -/
inductive MergeResult where
  | Success
  | Conflict
deriving DecidableEq, Repr

/-- Equality of merge outcomes (`Result<MergeResult, Error>`) is decidable. -/
instance : DecidableEq (Except Error MergeResult) := fun a b =>
  match a, b with
  | Except.ok x, Except.ok y =>
    if h : x = y then isTrue (by rw [h])
    else isFalse (fun hc => h (by injection hc))
  | Except.ok _, Except.error _ => isFalse (fun hc => Except.noConfusion hc)
  | Except.error _, Except.ok _ => isFalse (fun hc => Except.noConfusion hc)
  | Except.error x, Except.error y =>
    if h : x = y then isTrue (by rw [h])
    else isFalse (fun hc => h (by injection hc))

/-- Type `DirectorState` (the two-state outcome `Director::run` reports to the
driving loop in main.rs). -/
inductive DirectorState where
  | Waiting
  | Done
deriving DecidableEq, Repr

/-- Rust `Vec::swap(i, j)`: exchange the elements at positions `i` and `j`
(identity when an index is out of range; merge.rs only calls it in range). -/
def vecSwap (l : List MergeMethod) (i j : Nat) : List MergeMethod :=
  match l.get? i, l.get? j with
  | some a, some b => (l.set i b).set j a
  | _, _ => l

/-- Function `DefaultPullRequestMerger::build_merge_methods`: start from
`[Squash, Merge, Rebase]`, find the position of the default method
(`position(..).unwrap()` always finds it, so `findIdx` is total here), and
swap that position with position 0. -/
def build_merge_methods (default_method : MergeMethod) : List MergeMethod :=
  let methods : List MergeMethod :=
    [MergeMethod.Squash, MergeMethod.Merge, MergeMethod.Rebase]
  let default_index := methods.findIdx (fun element => element == default_method)
  vecSwap methods default_index 0

/-- Function `DefaultPullRequestMerger::build_merge_message`: squash merges carry the
pull request body; other methods carry no message. -/
def build_merge_message (pull_request : PullRequest) (method : MergeMethod) :
    Option String :=
  if method = MergeMethod.Squash then pull_request.body else none

/-- The `MergeRequestBody` literal built inside `merge_with_method`. -/
def build_request_body (pull_request : PullRequest) (method : MergeMethod) :
    MergeRequestBody :=
  { sha := pull_request.head.sha
    commit_title := pull_request.title
    commit_message := build_merge_message pull_request method
    merge_method := method }

/-- Struct `DefaultPullRequestMerger`: holds the ordered fallback list. -/
structure DefaultPullRequestMerger where
  merge_methods : List MergeMethod
deriving DecidableEq, Repr

/-- Constructor `DefaultPullRequestMerger::new`. -/
def DefaultPullRequestMerger.new (config : MergeConfig) : DefaultPullRequestMerger :=
  { merge_methods := build_merge_methods config.default_method }

/-- The `for method in &self.merge_methods` loop of
`DefaultPullRequestMerger::merge`. `k` counts submissions already made, so
submission number `k` receives response `github k`. Besides the
`Result<MergeResult, Error>`, it returns the trace of submissions
performed, each paired with the response it received. Match arms are in
source order: success, `method_not_allowed` guard, `conflict` guard, fatal. -/
def mergeLoop (pull_request : PullRequest) (github : Nat → SubmitResponse) :
    List MergeMethod → Nat →
      Except Error MergeResult × List (MergeRequestBody × SubmitResponse)
  | [], _ => (Except.ok MergeResult.Conflict, [])
  | method :: rest, k =>
    let body := build_request_body pull_request method
    match github k with
    | SubmitResponse.ok => (Except.ok MergeResult.Success, [(body, SubmitResponse.ok)])
    | SubmitResponse.err e =>
      if e.method_not_allowed then
        let r := mergeLoop pull_request github rest (k + 1)
        (r.1, (body, SubmitResponse.err e) :: r.2)
      else if e.conflict then
        (Except.ok MergeResult.Conflict, [(body, SubmitResponse.err e)])
      else
        (Except.error { source := e }, [(body, SubmitResponse.err e)])

/-- Function `DefaultPullRequestMerger::merge`: run the fallback loop over the
merger's method list, starting from submission number 0. -/
def DefaultPullRequestMerger.merge (self : DefaultPullRequestMerger)
    (pull_request : PullRequest) (github : Nat → SubmitResponse) :
    Except Error MergeResult × List (MergeRequestBody × SubmitResponse) :=
  mergeLoop pull_request github self.merge_methods 0

/-- Struct `DummyPullRequestMerger` (dry-run merger, no fields). -/
structure DummyPullRequestMerger where
deriving DecidableEq, Repr

/-- Function `DummyPullRequestMerger::merge`: ignores its arguments, performs no
submission (empty trace) and reports success. -/
def DummyPullRequestMerger.merge (_self : DummyPullRequestMerger)
    (_pull_request : PullRequest) (_github : Nat → SubmitResponse) :
    Except Error MergeResult × List (MergeRequestBody × SubmitResponse) :=
  (Except.ok MergeResult.Success, [])

/-- The driving loop in `main` (main.rs lines 132-147): call
`director.run()`; on `Ok(Waiting)` sleep and loop, on `Ok(Done)` or `Err`
break. `outcomes k` is the result of the (k+1)-th `run()` call; `fuel`
bounds the number of iterations we observe. Returns `none` while the loop
is still running after `fuel` iterations, and `some (runs, sleeps)` — the
number of `run()` calls and of sleeps performed — when the loop exits. -/
def mainLoop (outcomes : Nat → Except Error DirectorState) :
    Nat → Nat → Nat → Option (Nat × Nat)
  | 0, _, _ => none
  | fuel + 1, k, sleeps =>
    match outcomes k with
    | Except.ok DirectorState.Waiting => mainLoop outcomes fuel (k + 1) (sleeps + 1)
    | Except.ok DirectorState.Done => some (k + 1, sleeps)
    | Except.error _ => some (k + 1, sleeps)

/-- Whether a submission response is a success. -/
def isOk : SubmitResponse → Bool
  | SubmitResponse.ok => true
  | SubmitResponse.err _ => false

/-- A concrete pull request used to instantiate general theorems. -/
def examplePullRequest : PullRequest :=
  { title := "title", body := some "body", head := { sha := "sha0" } }

/-- C1. The claim states that `build_merge_methods(default)` reorders
[Squash, Merge, Rebase] with `default` first and the other two in their
original relative order. This fails at `default = Rebase`: the code swaps
Rebase with the front element, giving [Rebase, Merge, Squash], whereas
keeping the relative order of Squash and Merge would give
[Rebase, Squash, Merge]. -/
theorem build_merge_methods_rebase_not_stable :
    build_merge_methods MergeMethod.Rebase =
      [MergeMethod.Rebase, MergeMethod.Merge, MergeMethod.Squash] ∧
    ¬ build_merge_methods MergeMethod.Rebase =
      MergeMethod.Rebase ::
        ([MergeMethod.Squash, MergeMethod.Merge, MergeMethod.Rebase].erase
          MergeMethod.Rebase) := by
  decide

/-- C1 (amended). `build_merge_methods(default)` swaps `default` with the
first element of [Squash, Merge, Rebase]: Squash ↦ [Squash, Merge, Rebase],
Merge ↦ [Merge, Squash, Rebase], Rebase ↦ [Rebase, Merge, Squash]; for
Squash and Merge the other two keep their relative order, for Rebase they
do not. -/
theorem build_merge_methods_eq_swap :
    build_merge_methods MergeMethod.Squash =
      [MergeMethod.Squash, MergeMethod.Merge, MergeMethod.Rebase] ∧
    build_merge_methods MergeMethod.Merge =
      [MergeMethod.Merge, MergeMethod.Squash, MergeMethod.Rebase] ∧
    build_merge_methods MergeMethod.Rebase =
      [MergeMethod.Rebase, MergeMethod.Merge, MergeMethod.Squash] := by
  decide

/-- C2. For every default method, `build_merge_methods(default)` is a
3-element list containing each of Squash, Merge, Rebase exactly once, with
the default method first. -/
theorem build_merge_methods_perm (default_method : MergeMethod) :
    (build_merge_methods default_method).length = 3 ∧
    (build_merge_methods default_method).count MergeMethod.Squash = 1 ∧
    (build_merge_methods default_method).count MergeMethod.Merge = 1 ∧
    (build_merge_methods default_method).count MergeMethod.Rebase = 1 ∧
    (build_merge_methods default_method).head? = some default_method := by
  cases default_method <;> decide

/-- Helper: prefixing a trace with a failed submission does not change its
number of successful submissions. -/
theorem countP_ok_cons_err (body : MergeRequestBody) (e : ClientError)
    (l : List (MergeRequestBody × SubmitResponse)) :
    ((body, SubmitResponse.err e) :: l).countP (fun a => isOk a.2) =
      l.countP (fun a => isOk a.2) := by
  simp [List.countP_cons, isOk]

/-- Helper: the trace of the fallback loop contains exactly one successful
response when the loop reports Success, and none otherwise. -/
theorem mergeLoop_count (pull_request : PullRequest) (github : Nat → SubmitResponse) :
    ∀ (methods : List MergeMethod) (k : Nat),
      (mergeLoop pull_request github methods k).2.countP (fun a => isOk a.2) =
        (if (mergeLoop pull_request github methods k).1 = Except.ok MergeResult.Success
          then 1 else 0) := by
  intro methods
  induction methods with
  | nil => intro k; simp [mergeLoop]
  | cons method rest ih =>
    intro k
    simp only [mergeLoop]
    cases hg : github k with
    | ok => simp [List.countP_cons, isOk]
    | err e =>
      by_cases hm : e.method_not_allowed = true
      · simp only [hm, if_true]
        rw [countP_ok_cons_err]
        exact ih (k + 1)
      · by_cases hc : e.conflict = true <;>
          simp [hm, hc, List.countP_cons, isOk]

/-- Helper: the fallback loop reports Success exactly when the last
response it consumed was a success. -/
theorem mergeLoop_success_iff_last (pull_request : PullRequest)
    (github : Nat → SubmitResponse) :
    ∀ (methods : List MergeMethod) (k : Nat),
      ((mergeLoop pull_request github methods k).1 = Except.ok MergeResult.Success ↔
        ((mergeLoop pull_request github methods k).2.map Prod.snd).getLast? =
          some SubmitResponse.ok) := by
  intro methods
  induction methods with
  | nil => intro k; simp [mergeLoop]
  | cons method rest ih =>
    intro k
    simp only [mergeLoop]
    cases hg : github k with
    | ok => simp
    | err e =>
      by_cases hm : e.method_not_allowed = true
      · cases hR : (mergeLoop pull_request github rest (k + 1)).2 with
        | nil =>
          have hcount := mergeLoop_count pull_request github rest (k + 1)
          rw [hR] at hcount
          simp only [List.countP_nil] at hcount
          have hns : ¬ (mergeLoop pull_request github rest (k + 1)).1 =
              Except.ok MergeResult.Success := by
            intro hs
            rw [if_pos hs] at hcount
            exact absurd hcount.symm (by decide)
          simp [hm, hR, hns]
        | cons x t =>
          have hrec := ih (k + 1)
          rw [hR] at hrec
          simp [hm, hR, List.getLast?_cons_cons, hrec]
      · by_cases hc : e.conflict = true <;> simp [hm, hc]

/-- C3. Each merge invocation performs at most one successful submission:
the trace contains exactly one success when the result is Success and none
otherwise, and the result is Success exactly when the last submission made
is the successful one — so the loop stops at the first success and makes no
further submissions after it. -/
theorem merge_success_at_first_ok (merger : DefaultPullRequestMerger)
    (pull_request : PullRequest) (github : Nat → SubmitResponse) :
    ((merger.merge pull_request github).2.countP (fun a => isOk a.2) =
      (if (merger.merge pull_request github).1 = Except.ok MergeResult.Success
        then 1 else 0)) ∧
    ((merger.merge pull_request github).1 = Except.ok MergeResult.Success ↔
      ((merger.merge pull_request github).2.map Prod.snd).getLast? =
        some SubmitResponse.ok) :=
  ⟨mergeLoop_count pull_request github merger.merge_methods 0,
    mergeLoop_success_iff_last pull_request github merger.merge_methods 0⟩

/-- C7. The dry-run merger reports Success for every pull request and every
client, and its submission trace is empty: it never invokes the client's
merge submission. -/
theorem dummy_merge_success (d : DummyPullRequestMerger)
    (pull_request : PullRequest) (github : Nat → SubmitResponse) :
    DummyPullRequestMerger.merge d pull_request github =
      (Except.ok MergeResult.Success, []) := rfl

/-- Helper: a run of the fallback loop over a nonempty method list always
performs at least one submission. -/
theorem mergeLoop_cons_pos (pull_request : PullRequest) (github : Nat → SubmitResponse)
    (method : MergeMethod) (rest : List MergeMethod) (k : Nat) :
    1 ≤ (mergeLoop pull_request github (method :: rest) k).2.length := by
  simp only [mergeLoop]
  cases github k with
  | ok => simp
  | err e =>
    by_cases hm : e.method_not_allowed = true
    · simp [hm]
    · by_cases hc : e.conflict = true <;> simp [hm, hc]

/-- Helper: when the first j responses are all classified method-not-allowed,
the fallback loop behaves as the loop on the remaining methods: same result,
a trace longer by those j submissions, recording the first j methods in
order. -/
theorem mergeLoop_skip (pull_request : PullRequest) (github : Nat → SubmitResponse) :
    ∀ (j : Nat) (methods : List MergeMethod) (k : Nat),
      j ≤ methods.length →
      (∀ i, i < j → ∃ e, github (k + i) = SubmitResponse.err e ∧
        e.method_not_allowed = true) →
      (mergeLoop pull_request github methods k).1 =
        (mergeLoop pull_request github (methods.drop j) (k + j)).1 ∧
      (mergeLoop pull_request github methods k).2.length =
        j + (mergeLoop pull_request github (methods.drop j) (k + j)).2.length ∧
      (mergeLoop pull_request github methods k).2.map (fun a => a.1.merge_method) =
        methods.take j ++
          (mergeLoop pull_request github (methods.drop j) (k + j)).2.map
            (fun a => a.1.merge_method) := by
  intro j
  induction j with
  | zero => intro methods k _ _; simp
  | succ j ih =>
    intro methods k hlen hprev
    cases methods with
    | nil => exact absurd hlen (by simp)
    | cons method rest =>
      obtain ⟨e, hge, hmna⟩ := hprev 0 (Nat.succ_pos j)
      rw [Nat.add_zero] at hge
      have hrec := ih rest (k + 1) (by simpa using hlen)
        (fun i hi => by
          obtain ⟨e', hg', hm'⟩ := hprev (i + 1) (Nat.succ_lt_succ hi)
          exact ⟨e', by rw [show k + 1 + i = k + (i + 1) from by omega]; exact hg', hm'⟩)
      simp only [mergeLoop, hge, hmna, if_true]
      rw [List.drop_succ_cons, List.take_succ_cons,
        show k + (j + 1) = k + 1 + j from by omega]
      refine ⟨hrec.1, ?_, ?_⟩
      · simp only [List.length_cons, hrec.2.1]
        omega
      · simp only [List.map_cons, hrec.2.2, List.cons_append]
        rfl

/-- C5. When every submission returns an error classified as
method-not-allowed, the merger proceeds through every method in order (the
trace records exactly the full method list) and, with the list exhausted
without success or conflict, returns Ok(Conflict). -/
theorem merge_exhaustion_conflict (merger : DefaultPullRequestMerger)
    (pull_request : PullRequest) (github : Nat → SubmitResponse)
    (h : ∀ i, i < merger.merge_methods.length →
      ∃ e, github i = SubmitResponse.err e ∧ e.method_not_allowed = true) :
    (merger.merge pull_request github).1 = Except.ok MergeResult.Conflict ∧
    (merger.merge pull_request github).2.map (fun a => a.1.merge_method) =
      merger.merge_methods := by
  have hskip := mergeLoop_skip pull_request github merger.merge_methods.length
    merger.merge_methods 0 (Nat.le_refl _) (fun i hi => by simpa using h i hi)
  rw [List.drop_length] at hskip
  constructor
  · show (mergeLoop pull_request github merger.merge_methods 0).1 = _
    rw [hskip.1]
    simp [mergeLoop]
  · show (mergeLoop pull_request github merger.merge_methods 0).2.map
      (fun a => a.1.merge_method) = _
    rw [hskip.2.2]
    simp [mergeLoop]

/-- A witness run for the exhaustion theorem: default method Merge, every
submission rejected as method-not-allowed. -/
theorem merge_exhaustion_conflict_witness :
    ((DefaultPullRequestMerger.new { default_method := MergeMethod.Merge }).merge
      examplePullRequest
      (fun _ => SubmitResponse.err { method_not_allowed := true, conflict := false })).1 =
        Except.ok MergeResult.Conflict ∧
    ((DefaultPullRequestMerger.new { default_method := MergeMethod.Merge }).merge
      examplePullRequest
      (fun _ => SubmitResponse.err { method_not_allowed := true, conflict := false })).2.map
        (fun a => a.1.merge_method) =
      (DefaultPullRequestMerger.new { default_method := MergeMethod.Merge }).merge_methods :=
  merge_exhaustion_conflict
    (DefaultPullRequestMerger.new { default_method := MergeMethod.Merge })
    examplePullRequest
    (fun _ => SubmitResponse.err { method_not_allowed := true, conflict := false })
    (fun _ _ => ⟨{ method_not_allowed := true, conflict := false }, rfl, rfl⟩)

/-- C4 (counterexample). With every response an error classified as both
method-not-allowed and conflict, the first submission's error is classified
as conflict, yet the merger does not return Conflict immediately: it
performs all 3 submissions instead of stopping after 1, refuting the claim
as stated. -/
theorem merge_conflict_claim_counterexample :
    (∃ e, (fun _ : Nat => SubmitResponse.err
        { method_not_allowed := true, conflict := true }) 0 =
          SubmitResponse.err e ∧ e.conflict = true) ∧
    ((DefaultPullRequestMerger.new { default_method := MergeMethod.Merge }).merge
        examplePullRequest
        (fun _ => SubmitResponse.err { method_not_allowed := true, conflict := true })).2.length
      = 3 ∧
    ¬ ((DefaultPullRequestMerger.new { default_method := MergeMethod.Merge }).merge
        examplePullRequest
        (fun _ => SubmitResponse.err { method_not_allowed := true, conflict := true })).2.length
      = 1 :=
  ⟨⟨{ method_not_allowed := true, conflict := true }, rfl, rfl⟩, rfl, by decide⟩

/-- C4 (amended). If the fallback loop reaches submission j (all earlier
responses classified method-not-allowed) and submission j returns an error
classified as conflict and not as method-not-allowed, merge returns
Ok(Conflict) immediately: exactly j+1 submissions are made and none of the
remaining methods is attempted. -/
theorem merge_conflict_stops (merger : DefaultPullRequestMerger)
    (pull_request : PullRequest) (github : Nat → SubmitResponse) (j : Nat)
    (e : ClientError)
    (hj : j < merger.merge_methods.length)
    (hprev : ∀ i, i < j → ∃ e', github i = SubmitResponse.err e' ∧
      e'.method_not_allowed = true)
    (hcur : github j = SubmitResponse.err e)
    (hconf : e.conflict = true) (hmna : e.method_not_allowed = false) :
    (merger.merge pull_request github).1 = Except.ok MergeResult.Conflict ∧
    (merger.merge pull_request github).2.length = j + 1 := by
  have hskip := mergeLoop_skip pull_request github j merger.merge_methods 0
    (Nat.le_of_lt hj) (fun i hi => by simpa using hprev i hi)
  have hne : merger.merge_methods.drop j ≠ [] := by
    intro hnil
    have hlen := congrArg List.length hnil
    rw [List.length_drop] at hlen
    simp only [List.length_nil] at hlen
    omega
  obtain ⟨m, rest', hd⟩ := List.exists_cons_of_ne_nil hne
  constructor
  · show (mergeLoop pull_request github merger.merge_methods 0).1 = _
    rw [hskip.1, hd]
    simp [mergeLoop, hcur, hmna, hconf]
  · show (mergeLoop pull_request github merger.merge_methods 0).2.length = _
    rw [hskip.2.1, hd]
    simp [mergeLoop, hcur, hmna, hconf]

/-- A witness run for the amended conflict theorem: the very first
submission returns a pure conflict error. -/
theorem merge_conflict_stops_witness :
    ((DefaultPullRequestMerger.new { default_method := MergeMethod.Merge }).merge
      examplePullRequest
      (fun _ => SubmitResponse.err { method_not_allowed := false, conflict := true })).1 =
        Except.ok MergeResult.Conflict ∧
    ((DefaultPullRequestMerger.new { default_method := MergeMethod.Merge }).merge
      examplePullRequest
      (fun _ => SubmitResponse.err { method_not_allowed := false, conflict := true })).2.length
      = 0 + 1 :=
  merge_conflict_stops
    (DefaultPullRequestMerger.new { default_method := MergeMethod.Merge })
    examplePullRequest
    (fun _ => SubmitResponse.err { method_not_allowed := false, conflict := true })
    0 { method_not_allowed := false, conflict := true }
    (by decide) (fun i hi => absurd hi (Nat.not_lt_zero i)) rfl rfl rfl

/-- C8. If the fallback loop reaches submission j (all earlier responses
classified method-not-allowed) and submission j returns an error classified
neither as method-not-allowed nor as conflict, merge stops immediately and
propagates it as a fatal Err: exactly j+1 submissions are made. -/
theorem merge_fatal_propagates (merger : DefaultPullRequestMerger)
    (pull_request : PullRequest) (github : Nat → SubmitResponse) (j : Nat)
    (e : ClientError)
    (hj : j < merger.merge_methods.length)
    (hprev : ∀ i, i < j → ∃ e', github i = SubmitResponse.err e' ∧
      e'.method_not_allowed = true)
    (hcur : github j = SubmitResponse.err e)
    (hmna : e.method_not_allowed = false) (hconf : e.conflict = false) :
    (merger.merge pull_request github).1 = Except.error { source := e } ∧
    (merger.merge pull_request github).2.length = j + 1 := by
  have hskip := mergeLoop_skip pull_request github j merger.merge_methods 0
    (Nat.le_of_lt hj) (fun i hi => by simpa using hprev i hi)
  have hne : merger.merge_methods.drop j ≠ [] := by
    intro hnil
    have hlen := congrArg List.length hnil
    rw [List.length_drop] at hlen
    simp only [List.length_nil] at hlen
    omega
  obtain ⟨m, rest', hd⟩ := List.exists_cons_of_ne_nil hne
  constructor
  · show (mergeLoop pull_request github merger.merge_methods 0).1 = _
    rw [hskip.1, hd]
    simp [mergeLoop, hcur, hmna, hconf]
  · show (mergeLoop pull_request github merger.merge_methods 0).2.length = _
    rw [hskip.2.1, hd]
    simp [mergeLoop, hcur, hmna, hconf]

/-- A witness run for the fatal-error theorem: the first submission fails
with an unclassified error. -/
theorem merge_fatal_propagates_witness :
    ((DefaultPullRequestMerger.new { default_method := MergeMethod.Merge }).merge
      examplePullRequest
      (fun _ => SubmitResponse.err { method_not_allowed := false, conflict := false })).1 =
        Except.error { source := { method_not_allowed := false, conflict := false } } ∧
    ((DefaultPullRequestMerger.new { default_method := MergeMethod.Merge }).merge
      examplePullRequest
      (fun _ => SubmitResponse.err { method_not_allowed := false, conflict := false })).2.length
      = 0 + 1 :=
  merge_fatal_propagates
    (DefaultPullRequestMerger.new { default_method := MergeMethod.Merge })
    examplePullRequest
    (fun _ => SubmitResponse.err { method_not_allowed := false, conflict := false })
    0 { method_not_allowed := false, conflict := false }
    (by decide) (fun i hi => absurd hi (Nat.not_lt_zero i)) rfl rfl rfl

/-- C10. The method-not-allowed classification takes precedence over the
conflict classification: if the fallback loop reaches submission j and its
error is classified as both, the loop continues with the remaining methods
(its outcome is that of the loop on the methods after j, the trace extends
past submission j, and when further methods remain at least one further
submission is made) rather than returning Conflict at j. -/
theorem merge_method_not_allowed_precedence (merger : DefaultPullRequestMerger)
    (pull_request : PullRequest) (github : Nat → SubmitResponse) (j : Nat)
    (e : ClientError)
    (hj : j < merger.merge_methods.length)
    (hprev : ∀ i, i < j → ∃ e', github i = SubmitResponse.err e' ∧
      e'.method_not_allowed = true)
    (hcur : github j = SubmitResponse.err e)
    (hmna : e.method_not_allowed = true) (_hconf : e.conflict = true) :
    (merger.merge pull_request github).1 =
      (mergeLoop pull_request github (merger.merge_methods.drop (j + 1)) (j + 1)).1 ∧
    (merger.merge pull_request github).2.length =
      (j + 1) +
        (mergeLoop pull_request github (merger.merge_methods.drop (j + 1)) (j + 1)).2.length ∧
    (j + 1 < merger.merge_methods.length →
      j + 2 ≤ (merger.merge pull_request github).2.length) := by
  have hskip := mergeLoop_skip pull_request github (j + 1) merger.merge_methods 0
    hj (fun i hi => by
      rcases Nat.lt_succ_iff_lt_or_eq.mp hi with h' | h'
      · simpa using hprev i h'
      · subst h'; exact ⟨e, by simpa using hcur, hmna⟩)
  simp only [Nat.zero_add] at hskip
  refine ⟨hskip.1, hskip.2.1, ?_⟩
  intro hlt
  have hne : merger.merge_methods.drop (j + 1) ≠ [] := by
    intro hnil
    have hlen := congrArg List.length hnil
    rw [List.length_drop] at hlen
    simp only [List.length_nil] at hlen
    omega
  obtain ⟨m, rest', hd⟩ := List.exists_cons_of_ne_nil hne
  have hpos : 1 ≤ (mergeLoop pull_request github
      (merger.merge_methods.drop (j + 1)) (j + 1)).2.length := by
    rw [hd]
    exact mergeLoop_cons_pos pull_request github m rest' (j + 1)
  have hlen := hskip.2.1
  have hbridge : (merger.merge pull_request github).2.length =
      (mergeLoop pull_request github merger.merge_methods 0).2.length := rfl
  omega

/-- A witness run for the precedence theorem: the first submission's error
carries both classifications, and the merger goes on to submit again. -/
theorem merge_method_not_allowed_precedence_witness :
    ((DefaultPullRequestMerger.new { default_method := MergeMethod.Merge }).merge
      examplePullRequest
      (fun _ => SubmitResponse.err { method_not_allowed := true, conflict := true })).1 =
      (mergeLoop examplePullRequest
        (fun _ => SubmitResponse.err { method_not_allowed := true, conflict := true })
        ((DefaultPullRequestMerger.new
          { default_method := MergeMethod.Merge }).merge_methods.drop 1) 1).1 ∧
    ((DefaultPullRequestMerger.new { default_method := MergeMethod.Merge }).merge
      examplePullRequest
      (fun _ => SubmitResponse.err { method_not_allowed := true, conflict := true })).2.length =
      1 + (mergeLoop examplePullRequest
        (fun _ => SubmitResponse.err { method_not_allowed := true, conflict := true })
        ((DefaultPullRequestMerger.new
          { default_method := MergeMethod.Merge }).merge_methods.drop 1) 1).2.length ∧
    (1 < (DefaultPullRequestMerger.new
        { default_method := MergeMethod.Merge }).merge_methods.length →
      2 ≤ ((DefaultPullRequestMerger.new { default_method := MergeMethod.Merge }).merge
        examplePullRequest
        (fun _ => SubmitResponse.err
          { method_not_allowed := true, conflict := true })).2.length) :=
  merge_method_not_allowed_precedence
    (DefaultPullRequestMerger.new { default_method := MergeMethod.Merge })
    examplePullRequest
    (fun _ => SubmitResponse.err { method_not_allowed := true, conflict := true })
    0 { method_not_allowed := true, conflict := true }
    (by decide) (fun i hi => absurd hi (Nat.not_lt_zero i)) rfl rfl rfl

/-- Helper: every submission recorded in the fallback loop's trace was
built by `build_request_body` from some method of the list. -/
theorem mergeLoop_body_shape (pull_request : PullRequest) (github : Nat → SubmitResponse) :
    ∀ (methods : List MergeMethod) (k : Nat) (b : MergeRequestBody)
      (resp : SubmitResponse),
      (b, resp) ∈ (mergeLoop pull_request github methods k).2 →
      ∃ m, m ∈ methods ∧ b = build_request_body pull_request m := by
  intro methods
  induction methods with
  | nil => intro k b resp h; simp [mergeLoop] at h
  | cons method rest ih =>
    intro k b resp h
    simp only [mergeLoop] at h
    cases hg : github k with
    | ok =>
      rw [hg] at h
      simp at h
      exact ⟨method, List.mem_cons_self method rest, h.1⟩
    | err e =>
      rw [hg] at h
      by_cases hm : e.method_not_allowed = true
      · simp only [hm, if_true] at h
        rcases List.mem_cons.mp h with h' | h'
        · exact ⟨method, List.mem_cons_self method rest,
            congrArg Prod.fst h'⟩
        · obtain ⟨m, hmem, hb⟩ := ih (k + 1) b resp h'
          exact ⟨m, List.mem_cons_of_mem method hmem, hb⟩
      · by_cases hc : e.conflict = true
        · simp only [hm, hc] at h
          simp at h
          exact ⟨method, List.mem_cons_self method rest, h.1⟩
        · simp only [hm, hc] at h
          simp at h
          exact ⟨method, List.mem_cons_self method rest, h.1⟩

/-- C6. Every submission the merger makes carries the pull request's head
sha as the expected sha, and its commit message is the pull request body
exactly when its merge method is Squash and is None for the other
methods. -/
theorem merge_request_fields (merger : DefaultPullRequestMerger)
    (pull_request : PullRequest) (github : Nat → SubmitResponse)
    (b : MergeRequestBody) (resp : SubmitResponse)
    (h : (b, resp) ∈ (merger.merge pull_request github).2) :
    b.sha = pull_request.head.sha ∧
    b.commit_message =
      (if b.merge_method = MergeMethod.Squash then pull_request.body else none) := by
  obtain ⟨m, _, hb⟩ := mergeLoop_body_shape pull_request github
    merger.merge_methods 0 b resp h
  subst hb
  refine ⟨rfl, ?_⟩
  by_cases hm : m = MergeMethod.Squash <;>
    simp [build_request_body, build_merge_message, hm]

/-- A witness submission for the request-fields theorem: the first (squash)
submission of a merger whose default method is Squash. -/
theorem merge_request_fields_witness :
    (build_request_body examplePullRequest MergeMethod.Squash).sha =
      examplePullRequest.head.sha ∧
    (build_request_body examplePullRequest MergeMethod.Squash).commit_message =
      (if (build_request_body examplePullRequest MergeMethod.Squash).merge_method =
          MergeMethod.Squash then examplePullRequest.body else none) :=
  merge_request_fields
    (DefaultPullRequestMerger.new { default_method := MergeMethod.Squash })
    examplePullRequest (fun _ => SubmitResponse.ok)
    (build_request_body examplePullRequest MergeMethod.Squash) SubmitResponse.ok
    (by decide)

/-- Helper: characterization of the driving loop from any intermediate
state: with the next n outcomes Waiting and the one after them terminal
(Done or an error), the loop makes n+1 more run() calls and n more sleeps
and exits, unless the fuel bound runs out first. -/
theorem mainLoop_terminates (outcomes : Nat → Except Error DirectorState) :
    ∀ (n k s fuel : Nat),
      (∀ i, i < n → outcomes (k + i) = Except.ok DirectorState.Waiting) →
      (outcomes (k + n) = Except.ok DirectorState.Done ∨
        ∃ e, outcomes (k + n) = Except.error e) →
      mainLoop outcomes fuel k s =
        (if fuel ≤ n then none else some (k + n + 1, s + n)) := by
  intro n
  induction n with
  | zero =>
    intro k s fuel _ ht
    cases fuel with
    | zero => rw [if_pos (Nat.zero_le 0)]; rfl
    | succ f =>
      rw [if_neg (by omega)]
      rcases ht with h | ⟨e, h⟩
      · rw [Nat.add_zero] at h
        simp [mainLoop, h]
      · rw [Nat.add_zero] at h
        simp [mainLoop, h]
  | succ n ih =>
    intro k s fuel hw ht
    cases fuel with
    | zero => rw [if_pos (Nat.zero_le (n + 1))]; rfl
    | succ f =>
      have h0 : outcomes k = Except.ok DirectorState.Waiting := by
        have := hw 0 (Nat.succ_pos n)
        rwa [Nat.add_zero] at this
      have hrec := ih (k + 1) (s + 1) f
        (fun i hi => by
          have := hw (i + 1) (Nat.succ_lt_succ hi)
          rwa [show k + (i + 1) = k + 1 + i from by omega] at this)
        (by rwa [show k + 1 + n = k + (n + 1) from by omega])
      simp only [mainLoop, h0]
      rw [hrec]
      by_cases hf : f ≤ n
      · rw [if_pos hf, if_pos (by omega)]
      · rw [if_neg hf, if_neg (by omega)]
        have e1 : k + 1 + n + 1 = k + (n + 1) + 1 := by omega
        have e2 : s + 1 + n = s + (n + 1) := by omega
        rw [e1, e2]

/-- C9. The driving loop invokes run() repeatedly: with the first n run()
outcomes Waiting and the (n+1)-th outcome Done or an error, the loop makes
exactly n+1 run() calls and n sleeps (one sleep after each Waiting) and
then exits — and with the fuel bound at most n (only Waiting outcomes
observed) it is still looping. -/
theorem main_loop_runs_until_done_or_error
    (outcomes : Nat → Except Error DirectorState) (n fuel : Nat)
    (hw : ∀ i, i < n → outcomes i = Except.ok DirectorState.Waiting)
    (ht : outcomes n = Except.ok DirectorState.Done ∨
      ∃ e, outcomes n = Except.error e) :
    mainLoop outcomes fuel 0 0 =
      (if fuel ≤ n then none else some (n + 1, n)) := by
  have h := mainLoop_terminates outcomes n 0 0 fuel
    (fun i hi => by rw [Nat.zero_add]; exact hw i hi)
    (by rwa [Nat.zero_add])
  simpa using h

/-- A witness run of the driving loop: one Waiting outcome followed by
Done — two run() calls, one sleep. -/
theorem main_loop_runs_witness :
    mainLoop
      (fun i => if i = 0 then Except.ok DirectorState.Waiting
        else Except.ok DirectorState.Done) 3 0 0 = some (2, 1) := by
  have h := main_loop_runs_until_done_or_error
    (fun i => if i = 0 then Except.ok DirectorState.Waiting
      else Except.ok DirectorState.Done)
    1 3
    (fun i hi => by
      have hi0 : i = 0 := by omega
      subst hi0
      rfl)
    (Or.inl rfl)
  simpa using h

end Mergebro
